import Mathlib

/-!
Shallow embedding of the document-processing code of the
Autogen_GraphRAG_Ollama repository (document_processors/pdf_processor.py,
document_processors/word_processor.py, document_processors/universal_processor.py,
appUI_final_v5.py), together with theorems settling the claims about it.

Python strings are modelled by Lean `String`; Python exceptions by
`Except String`; Python dictionaries by association lists that keep
insertion order.  The helper functions in the `Py` namespace model the
Python string and path primitives the code uses.
-/

deriving instance DecidableEq for Except

namespace Py

/-- Characters stripped by the Python str.strip method. -/
def isSpace (c : Char) : Bool :=
  c = ' ' || c = '\t' || c = '\n' || c = '\r' || c = '\x0b' || c = '\x0c'

/-- Model of Python str.strip with no argument. -/
def strip (s : String) : String :=
  String.mk (((s.toList.dropWhile isSpace).reverse.dropWhile isSpace).reverse)

/-- Model of Python str.lower restricted to the characters the code meets. -/
def lower (s : String) : String :=
  String.mk (s.toList.map Char.toLower)

/-- Model of Python str.startswith with a string argument. -/
def startsWith (s pre : String) : Bool :=
  pre.toList.isPrefixOf s.toList

/-- Model of Python str.endswith with a string argument. -/
def endsWith (s suf : String) : Bool :=
  suf.toList.isSuffixOf s.toList

/-- Fuel-driven core of str.replace for a non-empty pattern.  The fuel is
the length of the subject, which suffices because every step consumes at
least one character of the subject. -/
def replaceFuel (old new : List Char) : Nat → List Char → List Char
  | 0, l => l
  | _ + 1, [] => []
  | fuel + 1, c :: rest =>
    if old.isPrefixOf (c :: rest) then
      new ++ replaceFuel old new fuel ((c :: rest).drop old.length)
    else
      c :: replaceFuel old new fuel rest

/-- Model of Python str.replace: every non-overlapping occurrence of
`old` is replaced by `new`, left to right; an empty `old` inserts `new`
before every character and at the end. -/
def replace (s old new : String) : String :=
  if old.toList.isEmpty then
    new ++ String.join (s.toList.map (fun c => String.mk [c] ++ new))
  else
    String.mk (replaceFuel old.toList new.toList s.toList.length s.toList)

/-- Fuel-driven scanner replacing every run of three or more newline
characters by exactly two, as re.sub with pattern backslash-n-brace-3-comma
does. -/
def collapseNLFuel : Nat → List Char → List Char
  | 0, l => l
  | _ + 1, [] => []
  | fuel + 1, c :: rest =>
    if c = '\n' then
      let run := rest.takeWhile (fun d => d = '\n')
      let tail := rest.dropWhile (fun d => d = '\n')
      (if run.length + 1 ≥ 3 then ['\n', '\n'] else List.replicate (run.length + 1) '\n')
        ++ collapseNLFuel fuel tail
    else
      c :: collapseNLFuel fuel rest

/-- Model of re.sub collapsing runs of three or more newlines to two. -/
def collapseNewlines (s : String) : String :=
  String.mk (collapseNLFuel s.toList.length s.toList)

/-- Fuel-driven core of str.split with a non-empty separator. -/
def splitFuel (sep : List Char) : Nat → List Char → List Char → List String
  | 0, acc, l => [String.mk (acc.reverse ++ l)]
  | _ + 1, acc, [] => [String.mk acc.reverse]
  | fuel + 1, acc, c :: rest =>
    if sep.isPrefixOf (c :: rest) then
      String.mk acc.reverse :: splitFuel sep fuel [] ((c :: rest).drop sep.length)
    else
      splitFuel sep fuel (c :: acc) rest

/-- Model of Python str.split with a non-empty separator string. -/
def split (s sep : String) : List String :=
  if sep.toList.isEmpty then [s]
  else splitFuel sep.toList s.toList.length [] s.toList

/-- Value of a non-empty all-digit character list, if it is one. -/
def digitsVal : List Char → Option Nat
  | [] => none
  | ds =>
    if ds.all Char.isDigit then
      some (ds.foldl (fun n c => 10 * n + (c.toNat - '0'.toNat)) 0)
    else none

/-- Model of the Python int constructor on a string: surrounding
whitespace is stripped, an optional sign is allowed, and at least one
digit must follow; otherwise the constructor raises (modelled none). -/
def toInt? (s : String) : Option Int :=
  match (strip s).toList with
  | [] => none
  | '+' :: ds => (digitsVal ds).map Int.ofNat
  | '-' :: ds => (digitsVal ds).map (fun n => -(n : Int))
  | ds => (digitsVal ds).map Int.ofNat

/-- Word characters of the regular expression class backslash-w. -/
def isWordChar (c : Char) : Bool :=
  c.isAlphanum || c = '_'

/-- Fuel-driven scanner returning the maximal word-character runs. -/
def wordsFuel : Nat → List Char → List String
  | 0, _ => []
  | _ + 1, [] => []
  | fuel + 1, c :: rest =>
    if isWordChar c then
      String.mk (c :: rest.takeWhile isWordChar) :: wordsFuel fuel (rest.dropWhile isWordChar)
    else
      wordsFuel fuel rest

/-- Model of re.findall with the word pattern used for word counts. -/
def findWords (s : String) : List String :=
  wordsFuel s.toList.length s.toList

/-- Model of os.path.join on the two-argument calls the code makes. -/
def pathJoin (a b : String) : String :=
  if startsWith b "/" then b
  else if a = "" then b
  else if endsWith a "/" then a ++ b
  else a ++ "/" ++ b

/-- Model of the str.join method: join the pieces with the separator. -/
def joinSep (sep : String) : List String → String
  | [] => ""
  | s :: rest => rest.foldl (fun a t => a ++ sep ++ t) s

/-- Concatenation of a list of strings, in order. -/
def concatAll : List String → String
  | [] => ""
  | s :: rest => s ++ concatAll rest

/-- Membership test of a key in an ordered association list (the model of
a Python dictionary). -/
def keyMem (l : List (String × β)) (k : String) : Bool :=
  l.any (fun kv => kv.1 == k)

/-- Lookup of a key in an ordered association list. -/
def keyGet? (l : List (String × β)) (k : String) : Option β :=
  (l.find? (fun kv => kv.1 == k)).map (fun kv => kv.2)

/-- Assignment to a key of an ordered association list: an existing key
keeps its place, a new key is appended, as Python dictionaries do. -/
def keySet (l : List (String × β)) (k : String) (v : β) : List (String × β) :=
  match l with
  | [] => [(k, v)]
  | kv :: rest => if kv.1 == k then (k, v) :: rest else kv :: keySet rest k v

end Py

namespace PdfProcessor

/-- Configuration fields of PDFDocumentProcessor that the modelled code
paths read (pdf_processor.py lines 20-28). -/
structure Config where
  ocr_enabled : Bool
  extract_images : Bool
deriving DecidableEq

/-- One PDF page as the code observes it: the text page.get_text returns,
the outcome of running pytesseract on the rendered page (ok text, or the
exception message when rendering or OCR raises), and the number of
embedded images page.get_images reports. -/
structure Page where
  nativeText : String
  ocr : Except String String
  imageCount : Nat
deriving DecidableEq

/-- Standard PDF metadata fields of fitz doc.metadata; metaPresent models
the truthiness test on the metadata dictionary itself. -/
structure Meta where
  metaPresent : Bool
  title : String
  author : String
  subject : String
  keywords : String
  creationDate : String
  modDate : String
deriving DecidableEq

/-- Environment of one conversion: the stem of the input file name, the
output directory, the outcome of fitz.open, the file size query, and
whether some write inside the conversion raises (the message). -/
structure Env where
  name : String
  output_dir : String
  openRes : Except String (Meta × List Page)
  fileSize : Except String Nat
  writeErr : Option String
deriving DecidableEq

/-- Model of PDFDocumentProcessor. extract_text_with_ocr (lines 51-65):
any exception is caught and the empty string returned. -/
def extract_text_with_ocr (p : Page) : String :=
  match p.ocr with
  | .ok t => t
  | .error _ => ""

/-- Per-page text selection of extract_text (lines 36-44): the OCR result
replaces the native text when OCR is enabled and the native text is blank
or shorter than 50 characters. -/
def extractPageText (cfg : Config) (p : Page) : String :=
  let text := p.nativeText
  if cfg.ocr_enabled && (Py.strip text == "" || text.length < 50) then
    extract_text_with_ocr p
  else text

/-- Model of PDFDocumentProcessor.extract_text (lines 30-49). -/
def extract_text (cfg : Config) (openRes : Except String (Meta × List Page)) : String :=
  match openRes with
  | .error e => "Error: Could not extract text from document (" ++ e ++ ")"
  | .ok (_, pages) => Py.joinSep "\n\n" (pages.map (extractPageText cfg))

/-- Per-page text selection of convert_to_markdown (lines 129-132),
written as the source nests its conditionals. -/
def convertPageText (cfg : Config) (p : Page) : String :=
  let text := p.nativeText
  if Py.strip text == "" || text.length < 50 then
    if cfg.ocr_enabled then extract_text_with_ocr p else text
  else text

/-- Conditional metadata entries of extract_metadata (lines 75-87). -/
def metaEntries (m : Meta) : List (String × String) :=
  if m.metaPresent then
    (if m.title ≠ "" then [("title", m.title)] else [])
    ++ (if m.author ≠ "" then [("author", m.author)] else [])
    ++ (if m.subject ≠ "" then [("subject", m.subject)] else [])
    ++ (if m.keywords ≠ "" then [("keywords", m.keywords)] else [])
    ++ (if m.creationDate ≠ "" then [("created", m.creationDate)] else [])
    ++ (if m.modDate ≠ "" then [("modified", m.modDate)] else [])
  else []

/-- Model of PDFDocumentProcessor.extract_metadata (lines 67-100): any
exception inside is caught and the error dictionary returned. -/
def extract_metadata (cfg : Config) (env : Env) : List (String × String) :=
  match (do
    let (meta, pages) ← env.openRes
    let size ← env.fileSize
    let full_text := extract_text cfg env.openRes
    Except.ok (metaEntries meta
      ++ [("page_count", toString pages.length),
          ("file_size", toString size),
          ("word_count", toString (Py.findWords full_text).length)]) :
      Except String (List (String × String))) with
  | .ok m => m
  | .error e => [("error", "Could not extract metadata (" ++ e ++ ")")]

/-- YAML frontmatter writes of convert_to_markdown (lines 114-118),
as the source folds over the metadata entries. -/
def writeFrontmatter (metadata : List (String × String)) (acc : String) : String :=
  (metadata.foldl
    (fun a kv => if Py.strip kv.2 ≠ "" then a ++ kv.1 ++ ": " ++ kv.2 ++ "\n" else a)
    (acc ++ "---\n")) ++ "---\n\n"

/-- Paragraph writes of one page (lines 134-140): clean the text, split
on blank lines, write each stripped non-blank paragraph. -/
def writeParagraphs (text : String) (acc : String) : String :=
  (Py.split (Py.collapseNewlines text) "\n\n").foldl
    (fun a para => if Py.strip para ≠ "" then a ++ Py.strip para ++ "\n\n" else a)
    acc

/-- Image-reference writes of one page (lines 143-162). -/
def writeImages (name : String) (pageIdx : Nat) (p : Page) (acc : String) : String :=
  (List.range p.imageCount).foldl
    (fun a i =>
      a ++ "![Image " ++ toString (i + 1) ++ " from page " ++ toString (pageIdx + 1)
        ++ "](" ++ Py.pathJoin (name ++ "_images")
              ("page" ++ toString (pageIdx + 1) ++ "_img" ++ toString (i + 1) ++ ".png")
        ++ ")\n\n")
    acc

/-- Page-loop writes of convert_to_markdown (lines 125-162). -/
def writePages (cfg : Config) (name : String) : Nat → List Page → String → String
  | _, [], acc => acc
  | idx, p :: ps, acc =>
    let acc := acc ++ "## Page " ++ toString (idx + 1) ++ "\n\n"
    let acc := writeParagraphs (convertPageText cfg p) acc
    let acc := if cfg.extract_images then writeImages name idx p acc else acc
    writePages cfg name (idx + 1) ps acc

/-- Full markdown content written by convert_to_markdown on success
(lines 111-162). -/
def convertBody (cfg : Config) (name : String) (metadata : List (String × String))
    (pages : List Page) : String :=
  let s := writeFrontmatter metadata ""
  let title := (Py.keyGet? metadata "title").getD name
  let s := s ++ "# " ++ title ++ "\n\n"
  writePages cfg name 0 pages s

/-- Model of PDFDocumentProcessor.convert_to_markdown (lines 102-167):
the returned string, paired with the content written to the output file
when the conversion succeeds. -/
def convert_to_markdown (cfg : Config) (env : Env) : String × Option String :=
  match env.openRes with
  | .error e => ("Error: Could not convert document to Markdown (" ++ e ++ ")", none)
  | .ok (_, pages) =>
    match env.writeErr with
    | some e => ("Error: Could not convert document to Markdown (" ++ e ++ ")", none)
    | none =>
      (Py.pathJoin env.output_dir (env.name ++ ".md"),
       some (convertBody cfg env.name (extract_metadata cfg env) pages))

/-- Frontmatter lines: one "key: value" line per entry whose value does
not strip to the empty string, in order. -/
def frontmatterEntries (metadata : List (String × String)) : String :=
  Py.concatAll (metadata.filterMap
    (fun kv => if Py.strip kv.2 = "" then none else some (kv.1 ++ ": " ++ kv.2 ++ "\n")))

/-- Paragraph block of one page: the non-blank paragraphs of the cleaned
text, each stripped and followed by a blank line, in order. -/
def paragraphBlock (text : String) : String :=
  Py.concatAll ((Py.split (Py.collapseNewlines text) "\n\n").filterMap
    (fun para => if Py.strip para = "" then none else some (Py.strip para ++ "\n\n")))

/-- Image-reference block of one page. -/
def imagesBlock (name : String) (pageIdx : Nat) (p : Page) : String :=
  Py.concatAll ((List.range p.imageCount).map
    (fun i =>
      "![Image " ++ toString (i + 1) ++ " from page " ++ toString (pageIdx + 1)
        ++ "](" ++ Py.pathJoin (name ++ "_images")
              ("page" ++ toString (pageIdx + 1) ++ "_img" ++ toString (i + 1) ++ ".png")
        ++ ")\n\n"))

/-- One markdown page section: the numbered heading, then the paragraph
block, then the image block when image extraction is enabled. -/
def pageSection (cfg : Config) (name : String) (idx : Nat) (p : Page) : String :=
  "## Page " ++ toString (idx + 1) ++ "\n\n"
    ++ paragraphBlock (convertPageText cfg p)
    ++ (if cfg.extract_images then imagesBlock name idx p else "")

/-- The page sections from a starting page index, one per page. -/
def sectionsFrom (cfg : Config) (name : String) : Nat → List Page → List String
  | _, [] => []
  | idx, p :: ps => pageSection cfg name idx p :: sectionsFrom cfg name (idx + 1) ps

end PdfProcessor

namespace WordProcessor

/-- Configuration field of WordDocumentProcessor read by the modelled
code paths (word_processor.py line 24). -/
structure Config where
  include_images : Bool
deriving DecidableEq

/-- One run of a paragraph, as python-docx exposes it. -/
structure Run where
  text : String
  bold : Bool
  italic : Bool
deriving DecidableEq

/-- One paragraph: its text, the name of its style, and its runs. -/
structure Para where
  text : String
  styleName : String
  runs : List Run
deriving DecidableEq

/-- One table as the code reads it: the cell texts of each row. -/
structure Table where
  rows : List (List String)
deriving DecidableEq

/-- Core properties of a document; python-docx returns None or a string,
and the code tests truthiness, so the empty string models both falsy
cases. -/
structure CoreProps where
  title : String
  author : String
  created : String
  modified : String
  subject : String
  keywords : String
deriving DecidableEq

/-- A Word document as the code observes it. -/
structure WordDoc where
  paragraphs : List Para
  tables : List Table
  core : CoreProps
deriving DecidableEq

/-- Environment of one conversion: the stem of the input file name, the
output directory, the outcome of the Document constructor, the image
files the relationship scan would yield, the file size query, and
whether some write raises. -/
structure Env where
  name : String
  output_dir : String
  openRes : Except String WordDoc
  imageFiles : List String
  fileSize : Except String Nat
  writeErr : Option String

/-- Model of WordDocumentProcessor.extract_text (lines 26-56).  Its
success value is a pair of the joined text and the image path list, even
though the declared return type is a plain string. -/
def extract_text (cfg : Config) (openRes : Except String WordDoc)
    (imageFiles : List String) : String × List String :=
  match openRes with
  | .error e => ("Error: Could not extract text from document (" ++ e ++ ")", [])
  | .ok doc =>
    let paraTexts := doc.paragraphs.filterMap
      (fun p => if Py.strip p.text ≠ "" then some p.text else none)
    let tableTexts := (doc.tables.map
      (fun t => t.rows.map (fun r => Py.joinSep " | " (r.map Py.strip)))).flatten
    (Py.joinSep "\n\n" (paraTexts ++ tableTexts),
     if cfg.include_images then imageFiles else [])

/-- Dynamic value passed to re.findall in extract_metadata; the code
passes the pair extract_text returns where a string is expected. -/
inductive PyVal where
  | str : String → PyVal
  | pair : String → List String → PyVal
deriving DecidableEq

/-- Model of re.findall with the word pattern: on a string it returns
the word list; on any other value it raises TypeError. -/
def re_findall_words : PyVal → Except String (List String)
  | .str s => .ok (Py.findWords s)
  | .pair _ _ => .error "TypeError: expected string or bytes-like object"

/-- Conditional metadata entries from the core properties (lines 67-78). -/
def coreEntries (c : CoreProps) : List (String × String) :=
  (if c.title ≠ "" then [("title", c.title)] else [])
  ++ (if c.author ≠ "" then [("author", c.author)] else [])
  ++ (if c.created ≠ "" then [("created", c.created)] else [])
  ++ (if c.modified ≠ "" then [("modified", c.modified)] else [])
  ++ (if c.subject ≠ "" then [("subject", c.subject)] else [])
  ++ (if c.keywords ≠ "" then [("keywords", c.keywords)] else [])

/-- Model of WordDocumentProcessor.extract_metadata (lines 58-87): the
word-count line calls re.findall on the pair extract_text returns, so it
raises; the handler returns the error dictionary. -/
def extract_metadata (cfg : Config) (env : Env) : List (String × String) :=
  match env.openRes with
  | .error e => [("error", "Could not extract metadata (" ++ e ++ ")")]
  | .ok doc =>
    let m := coreEntries doc.core
    let pairVal := extract_text cfg env.openRes env.imageFiles
    match re_findall_words (PyVal.pair pairVal.1 pairVal.2) with
    | .error e => [("error", "Could not extract metadata (" ++ e ++ ")")]
    | .ok words =>
      match env.fileSize with
      | .error e => [("error", "Could not extract metadata (" ++ e ++ ")")]
      | .ok size =>
        m ++ [("word_count", toString words.length), ("file_size", toString size)]

/-- Model of the Python expression repeating the hash character level
times: a non-positive level yields the empty string. -/
def hashes (level : Int) : String :=
  if level ≤ 0 then "" else String.mk (List.replicate level.toNat '#')

/-- Run formatting of a body paragraph (lines 118-131): a bold pass then
an italic pass, each replacing every occurrence of the run text. -/
def applyFormatting (p : Para) : String :=
  let text := p.text
  let text := p.runs.foldl
    (fun t r => if r.bold then Py.replace t r.text ("**" ++ r.text ++ "**") else t) text
  p.runs.foldl
    (fun t r => if r.italic then Py.replace t r.text ("*" ++ r.text ++ "*") else t) text

/-- Paragraph loop of convert_to_markdown (lines 108-133).  A heading
style whose remainder does not parse as an integer makes the int
constructor raise. -/
def writeParas : List Para → String → Except String String
  | [], acc => .ok acc
  | p :: ps, acc =>
    if Py.strip p.text = "" then writeParas ps acc
    else if Py.startsWith p.styleName "Heading" then
      match Py.toInt? (Py.replace p.styleName "Heading" "") with
      | none => .error "invalid literal for int with base 10"
      | some level => writeParas ps (acc ++ hashes level ++ " " ++ p.text ++ "\n\n")
    else writeParas ps (acc ++ applyFormatting p ++ "\n\n")

/-- Table loop of convert_to_markdown (lines 136-147).  Reading row 0 of
a table with no rows raises IndexError. -/
def writeTables : List Table → String → Except String String
  | [], acc => .ok acc
  | t :: ts, acc =>
    match t.rows with
    | [] => .error "list index out of range"
    | r0 :: rest =>
      let header := r0.map Py.strip
      let acc := acc ++ "| " ++ Py.joinSep " | " header ++ " |\n"
      let acc := acc ++ "| " ++ Py.joinSep " | " (List.replicate header.length "---") ++ " |\n"
      let acc := acc ++ Py.concatAll
        (rest.map (fun r => "| " ++ Py.joinSep " | " (r.map Py.strip) ++ " |\n"))
      writeTables ts (acc ++ "\n")

/-- YAML frontmatter writes of convert_to_markdown (lines 101-106). -/
def writeFrontmatter (metadata : List (String × String)) (acc : String) : String :=
  (metadata.foldl
    (fun a kv => if Py.strip kv.2 ≠ "" then a ++ kv.1 ++ ": " ++ kv.2 ++ "\n" else a)
    (acc ++ "---\n")) ++ "---\n\n"

/-- Content written by convert_to_markdown (lines 99-151), as far as the
writes succeed; the images list stays empty, so the image loop writes
nothing. -/
def convertBody (cfg : Config) (env : Env) (doc : WordDoc) : Except String String :=
  let s := writeFrontmatter (extract_metadata cfg env) ""
  match writeParas doc.paragraphs s with
  | .error e => .error e
  | .ok s =>
    match writeTables doc.tables s with
    | .error e => .error e
    | .ok s => .ok s

/-- Model of WordDocumentProcessor.convert_to_markdown (lines 89-156):
the returned string, paired with the content written when the conversion
succeeds. -/
def convert_to_markdown (cfg : Config) (env : Env) : String × Option String :=
  match env.openRes with
  | .error e => ("Error: Could not convert document to Markdown (" ++ e ++ ")", none)
  | .ok doc =>
    match env.writeErr with
    | some e => ("Error: Could not convert document to Markdown (" ++ e ++ ")", none)
    | none =>
      match convertBody cfg env doc with
      | .error e => ("Error: Could not convert document to Markdown (" ++ e ++ ")", none)
      | .ok content => (Py.pathJoin env.output_dir (env.name ++ ".md"), some content)

/-- Rendering the claim ascribes to one paragraph: nothing for a blank
paragraph, a level heading for a Heading style, the formatted body text
and a blank line otherwise (none when the heading level does not parse). -/
def renderedText (p : Para) : String :=
  if Py.strip p.text = "" then ""
  else if Py.startsWith p.styleName "Heading" then
    match Py.toInt? (Py.replace p.styleName "Heading" "") with
    | none => ""
    | some level => hashes level ++ " " ++ p.text ++ "\n\n"
  else applyFormatting p ++ "\n\n"

end WordProcessor

namespace PdfProcessor

/-- Model of PDFDocumentProcessor.process_directory (pdf_processor.py
lines 169-184): the walk is the list of directories with their file
names, conversion is abstracted by the convert function, and a result is
kept when it does not start with "Error". -/
def process_directory (convert : String → String → String)
    (walk : List (String × List String)) (output_dir : String) : List String :=
  walk.foldl
    (fun processed_files rootFiles =>
      rootFiles.2.foldl
        (fun processed_files file =>
          if Py.endsWith (Py.lower file) ".pdf" then
            let result := convert (Py.pathJoin rootFiles.1 file) output_dir
            if !(Py.startsWith result "Error") then processed_files ++ [result]
            else processed_files
          else processed_files)
        processed_files)
    []

end PdfProcessor

namespace WordProcessor

/-- Model of WordDocumentProcessor.process_directory (word_processor.py
lines 158-173); the suffix test accepts .docx and .doc. -/
def process_directory (convert : String → String → String)
    (walk : List (String × List String)) (output_dir : String) : List String :=
  walk.foldl
    (fun processed_files rootFiles =>
      rootFiles.2.foldl
        (fun processed_files file =>
          if Py.endsWith (Py.lower file) ".docx" || Py.endsWith (Py.lower file) ".doc" then
            let result := convert (Py.pathJoin rootFiles.1 file) output_dir
            if !(Py.startsWith result "Error") then processed_files ++ [result]
            else processed_files
          else processed_files)
        processed_files)
    []

end WordProcessor

namespace UniversalProcessor

/-- YAML values as yaml.safe_load returns them, as far as the merge code
inspects them. -/
inductive Yaml where
  | str : String → Yaml
  | int : Int → Yaml
  | bool : Bool → Yaml
  | null : Yaml
  | list : List Yaml → Yaml
  | dict : List (String × Yaml) → Yaml

/-- The default configuration of _load_config
(universal_processor.py lines 41-65). -/
def default_config : List (String × Yaml) :=
  [("log_level", .str "INFO"),
   ("max_workers", .int 4),
   ("processors", .dict
     [("word", .dict
        [("enabled", .bool true), ("chunk_size", .int 300), ("chunk_overlap", .int 100)]),
      ("pdf", .dict
        [("enabled", .bool true), ("ocr_enabled", .bool true), ("ocr_language", .str "eng"),
         ("chunk_size", .int 300), ("chunk_overlap", .int 100),
         ("extract_images", .bool false)])]),
   ("output_dir", .str "input/markdown"),
   ("backup_dir", .str "input/originals"),
   ("file_extensions", .dict
     [("word", .list [.str ".docx", .str ".doc"]), ("pdf", .list [.str ".pdf"])])]

/-- What loading the configuration file can yield: no usable path, an
exception while opening or parsing, or a parsed YAML value. -/
inductive ConfigSource where
  | noFile : ConfigSource
  | loadError : String → ConfigSource
  | loaded : Yaml → ConfigSource

/-- Sub-key fill of one nested dictionary (lines 78-80): every default
sub-key missing from the loaded dictionary is assigned, which appends it. -/
def fillMissing (sub : List (String × Yaml)) (defaults : List (String × Yaml)) :
    List (String × Yaml) :=
  defaults.foldl
    (fun acc sv => if Py.keyMem acc sv.1 then acc else Py.keySet acc sv.1 sv.2)
    sub

/-- One step of the merge loop (lines 74-80) for one default entry. -/
def mergeStep (cfg : List (String × Yaml)) (kv : String × Yaml) : List (String × Yaml) :=
  if Py.keyMem cfg kv.1 then
    match kv.2, Py.keyGet? cfg kv.1 with
    | .dict dsub, some (.dict csub) => Py.keySet cfg kv.1 (.dict (fillMissing csub dsub))
    | _, _ => cfg
  else Py.keySet cfg kv.1 kv.2

/-- Model of UniversalDocumentProcessor._load_config (lines 39-84).  A
missing path and a load exception yield the defaults; a loaded value
that is not a dictionary makes the merge raise TypeError, which the
handler turns into the defaults; a loaded dictionary is merged with the
defaults entry by entry. -/
def load_config : ConfigSource → List (String × Yaml)
  | .noFile => default_config
  | .loadError _ => default_config
  | .loaded (.dict m) => default_config.foldl mergeStep m
  | .loaded _ => default_config

/-- Property the claim asserts of the returned configuration: every
top-level default key is present. -/
def containsAllTop (cfg : List (String × Yaml)) : Bool :=
  default_config.all (fun kv => Py.keyMem cfg kv.1)

/-- Property the claim asserts of the returned configuration: at every
top-level default key holding a nested default dictionary, the value is
a dictionary containing every default sub-key. -/
def subkeysFilled (cfg : List (String × Yaml)) : Bool :=
  default_config.all (fun kv =>
    match kv.2 with
    | .dict dsub =>
      match Py.keyGet? cfg kv.1 with
      | some (.dict csub) => dsub.all (fun sv => Py.keyMem csub sv.1)
      | _ => false
    | _ => true)

/-- Shape condition under which the amended claim holds: the loaded file
does not assign a non-dictionary value to a top-level key whose default
value is a dictionary. -/
def preservesDictShape : ConfigSource → Bool
  | .loaded (.dict m) =>
    default_config.all (fun kv =>
      match kv.2 with
      | .dict _ =>
        match Py.keyGet? m kv.1 with
        | some (.dict _) => true
        | some _ => false
        | none => true
      | _ => true)
  | _ => true

/-- Result dictionary of process_file (lines 113-119). -/
structure ProcResult where
  file : String
  success : Bool
  output_path : Option String
  processor_type : Option String
  error : Option String

/-- Environment of one process_file call: whether creating the output
directory raises, the processor lookup result for the file extension,
the configured output and backup directories, and whether the backup
copy raises. -/
structure Env where
  makedirsErr : Option String
  lookup : Option (String × (String → String → String))
  output_dir : String
  backup_dir : Option String
  backupErr : Option String

/-- Model of UniversalDocumentProcessor.process_file (lines 111-161). -/
def process_file (env : Env) (file_path : String) : ProcResult :=
  let result : ProcResult :=
    { file := file_path, success := false, output_path := none,
      processor_type := none, error := none }
  match env.makedirsErr with
  | some e => { result with error := some e }
  | none =>
    match env.lookup with
    | none =>
      { result with error := some ("No suitable processor found for " ++ file_path) }
    | some (ptype, processor) =>
      let result := { result with processor_type := some ptype }
      let output_path := processor file_path env.output_dir
      if !(Py.startsWith output_path "Error") then
        let result :=
          { result with success := true, output_path := some output_path }
        match env.backup_dir with
        | some _ =>
          match env.backupErr with
          | some e => { result with error := some e }
          | none => result
        | none => result
      else { result with error := some output_path }

end UniversalProcessor

namespace UniversalProcessor

/-- Value the merge leaves at one top-level key: the default when the
key was absent, the filled dictionary when both values are
dictionaries, and the loaded value unchanged otherwise. -/
def mergeVal (cur : Option Yaml) (dflt : Yaml) : Yaml :=
  match cur with
  | none => dflt
  | some w =>
    match dflt, w with
    | .dict dsub, .dict csub => .dict (fillMissing csub dsub)
    | _, _ => w

end UniversalProcessor

namespace AppUI

/-- One entry of the local results the GraphRAG searcher returns. -/
structure LocalDoc where
  doc_id : String
  content : String
deriving DecidableEq

/-- Result object of search.search_kg. -/
structure SearchResults where
  local_results : List LocalDoc
deriving DecidableEq

/-- A Python exception as search_docs distinguishes them: whether it is
a requests.exceptions.RequestException, and its message. -/
structure PyExc where
  isRequestException : Bool
  msg : String
deriving DecidableEq

/-- Model of search_docs (appUI_final_v5.py lines 42-70): the argument
is the outcome of the query setup and search_kg call; only a
RequestException is caught and turned into the error string, any other
exception propagates. -/
def search_docs (res : Except PyExc SearchResults) : Except PyExc String :=
  match res with
  | .ok search_results =>
    if !search_results.local_results.isEmpty then
      .ok (Py.joinSep "\n\n" (search_results.local_results.map
        (fun doc => "Document: " ++ doc.doc_id ++ "\nContent: " ++ doc.content)))
    else .ok "No relevant documents found."
  | .error e =>
    if e.isRequestException then .ok ("Error searching documents: " ++ e.msg)
    else .error e

end AppUI

namespace PdfProcessor

theorem concatAll_nil : Py.concatAll [] = "" := rfl

theorem concatAll_cons (s : String) (l : List String) :
    Py.concatAll (s :: l) = s ++ Py.concatAll l := rfl

theorem writeFrontmatter_foldl (l : List (String × String)) :
    ∀ acc : String,
      l.foldl (fun a kv => if Py.strip kv.2 ≠ "" then a ++ kv.1 ++ ": " ++ kv.2 ++ "\n" else a) acc
        = acc ++ frontmatterEntries l := by
  induction l with
  | nil => intro acc; simp [frontmatterEntries, concatAll_nil]
  | cons kv l ih =>
    intro acc
    rw [List.foldl_cons]
    by_cases h : Py.strip kv.2 = ""
    · rw [if_neg (by simp [h]), ih]
      simp [frontmatterEntries, List.filterMap_cons, h]
    · rw [if_pos h, ih]
      simp [frontmatterEntries, List.filterMap_cons, h, concatAll_cons, String.append_assoc]

theorem writeFrontmatter_eq (metadata : List (String × String)) (acc : String) :
    writeFrontmatter metadata acc = acc ++ "---\n" ++ frontmatterEntries metadata ++ "---\n\n" := by
  unfold writeFrontmatter
  rw [writeFrontmatter_foldl]

theorem writeParagraphs_foldl (l : List String) :
    ∀ acc : String,
      l.foldl (fun a para => if Py.strip para ≠ "" then a ++ Py.strip para ++ "\n\n" else a) acc
        = acc ++ Py.concatAll (l.filterMap
            (fun para => if Py.strip para = "" then none else some (Py.strip para ++ "\n\n"))) := by
  induction l with
  | nil => intro acc; simp [concatAll_nil]
  | cons para l ih =>
    intro acc
    rw [List.foldl_cons]
    by_cases h : Py.strip para = ""
    · rw [if_neg (by simp [h]), ih]
      simp [List.filterMap_cons, h]
    · rw [if_pos h, ih]
      simp [List.filterMap_cons, h, concatAll_cons, String.append_assoc]

theorem writeParagraphs_eq (text : String) (acc : String) :
    writeParagraphs text acc = acc ++ paragraphBlock text := by
  unfold writeParagraphs paragraphBlock
  rw [writeParagraphs_foldl]

theorem writeImages_foldl (g : Nat → String) (l : List Nat) :
    ∀ acc : String, l.foldl (fun a i => a ++ g i) acc = acc ++ Py.concatAll (l.map g) := by
  induction l with
  | nil => intro acc; simp [concatAll_nil]
  | cons i l ih => intro acc; simp [ih, concatAll_cons, String.append_assoc]

theorem writeImages_eq (name : String) (idx : Nat) (p : Page) (acc : String) :
    writeImages name idx p acc = acc ++ imagesBlock name idx p := by
  unfold writeImages imagesBlock
  rw [show (fun (a : String) (i : Nat) =>
        a ++ "![Image " ++ toString (i + 1) ++ " from page " ++ toString (idx + 1)
          ++ "](" ++ Py.pathJoin (name ++ "_images")
                ("page" ++ toString (idx + 1) ++ "_img" ++ toString (i + 1) ++ ".png")
          ++ ")\n\n")
      = fun (a : String) (i : Nat) =>
        a ++ ("![Image " ++ toString (i + 1) ++ " from page " ++ toString (idx + 1)
          ++ "](" ++ Py.pathJoin (name ++ "_images")
                ("page" ++ toString (idx + 1) ++ "_img" ++ toString (i + 1) ++ ".png")
          ++ ")\n\n")
    from by funext a i; simp [String.append_assoc]]
  rw [writeImages_foldl]

theorem writePages_eq (cfg : Config) (name : String) :
    ∀ (pages : List Page) (idx : Nat) (acc : String),
      writePages cfg name idx pages acc = acc ++ Py.concatAll (sectionsFrom cfg name idx pages) := by
  intro pages
  induction pages with
  | nil => intro idx acc; simp [writePages, sectionsFrom, Py.concatAll]
  | cons p ps ih =>
    intro idx acc
    simp only [writePages, sectionsFrom, Py.concatAll]
    rw [writeParagraphs_eq]
    by_cases h : cfg.extract_images <;>
      simp [h, ih, writeImages_eq, pageSection, String.append_assoc]

theorem sectionsFrom_get (cfg : Config) (name : String) :
    ∀ (pages : List Page) (k i : Nat),
      (sectionsFrom cfg name k pages)[i]? = pages[i]?.map (pageSection cfg name (k + i)) := by
  intro pages
  induction pages with
  | nil => intro k i; simp [sectionsFrom]
  | cons p ps ih =>
    intro k i
    cases i with
    | zero => simp [sectionsFrom]
    | succ j =>
      simp only [sectionsFrom, List.getElem?_cons_succ]
      rw [ih (k + 1) j, show k + (j + 1) = k + 1 + j from by omega]

end PdfProcessor

namespace WordProcessor

theorem writeParas_ok (paras : List Para)
    (h : ∀ p ∈ paras, Py.strip p.text ≠ "" → Py.startsWith p.styleName "Heading" = true →
      (Py.toInt? (Py.replace p.styleName "Heading" "")).isSome) :
    ∀ acc : String,
      writeParas paras acc = .ok (acc ++ Py.concatAll (paras.map renderedText)) := by
  induction paras with
  | nil => intro acc; simp [writeParas, PdfProcessor.concatAll_nil]
  | cons p ps ih =>
    intro acc
    have hps : ∀ q ∈ ps, Py.strip q.text ≠ "" → Py.startsWith q.styleName "Heading" = true →
        (Py.toInt? (Py.replace q.styleName "Heading" "")).isSome :=
      fun q hq => h q (List.mem_cons_of_mem p hq)
    by_cases hblank : Py.strip p.text = ""
    · have hstep : writeParas (p :: ps) acc = writeParas ps acc := by
        simp [writeParas, hblank]
      rw [hstep, ih hps]
      simp [renderedText, hblank, PdfProcessor.concatAll_cons]
    · by_cases hhead : Py.startsWith p.styleName "Heading" = true
      · obtain ⟨level, hlevel⟩ :=
          Option.isSome_iff_exists.mp (h p (List.mem_cons_self p ps) hblank hhead)
        have hstep : writeParas (p :: ps) acc
            = writeParas ps (acc ++ hashes level ++ " " ++ p.text ++ "\n\n") := by
          simp [writeParas, hblank, hhead, hlevel]
        rw [hstep, ih hps]
        simp [renderedText, hblank, hhead, hlevel, PdfProcessor.concatAll_cons,
          String.append_assoc]
      · have hstep : writeParas (p :: ps) acc
            = writeParas ps (acc ++ applyFormatting p ++ "\n\n") := by
          simp [writeParas, hblank, hhead]
        rw [hstep, ih hps]
        simp [renderedText, hblank, hhead, PdfProcessor.concatAll_cons,
          String.append_assoc]

end WordProcessor

/-- Claim C3: OCR is applied optionally and only as a fallback: both in
extract_text and in convert_to_markdown the text used for a page is the
OCR result exactly when ocr_enabled is set and the native text is
whitespace-only or shorter than 50 characters, and the native text
unchanged otherwise; and extract_text joins the per-page selections. -/
theorem pdf_ocr_only_as_fallback (cfg : PdfProcessor.Config) (p : PdfProcessor.Page) :
    PdfProcessor.convertPageText cfg p = PdfProcessor.extractPageText cfg p ∧
    PdfProcessor.extractPageText cfg p =
      (if cfg.ocr_enabled = true ∧ (Py.strip p.nativeText = "" ∨ p.nativeText.length < 50)
       then PdfProcessor.extract_text_with_ocr p else p.nativeText) ∧
    ∀ (m : PdfProcessor.Meta) (pages : List PdfProcessor.Page),
      PdfProcessor.extract_text cfg (Except.ok (m, pages))
        = Py.joinSep "\n\n" (pages.map (PdfProcessor.extractPageText cfg)) := by
  refine ⟨?_, ?_, fun m pages => rfl⟩
  · unfold PdfProcessor.convertPageText PdfProcessor.extractPageText
    rcases cfg with ⟨ocr, imgs⟩
    cases ocr <;>
      by_cases h1 : Py.strip p.nativeText = "" <;>
        by_cases h2 : p.nativeText.length < 50 <;>
          simp [h1, h2]
  · unfold PdfProcessor.extractPageText
    rcases cfg with ⟨ocr, imgs⟩
    cases ocr <;>
      by_cases h1 : Py.strip p.nativeText = "" <;>
        by_cases h2 : p.nativeText.length < 50 <;>
          simp [h1, h2]

/-- Claim C2: the markdown written by a successful PDF conversion is the
frontmatter block, then the title heading, then the concatenation of one
section per page; the section at index i is exactly the section of page
i with heading number i+1, and each section is the numbered heading
followed by the non-blank stripped paragraphs of that page (then image
references when enabled). -/
theorem pdf_markdown_single_pass (cfg : PdfProcessor.Config) (name : String)
    (metadata : List (String × String)) (pages : List PdfProcessor.Page) :
    PdfProcessor.convertBody cfg name metadata pages
      = "---\n" ++ PdfProcessor.frontmatterEntries metadata ++ "---\n\n"
        ++ "# " ++ (Py.keyGet? metadata "title").getD name ++ "\n\n"
        ++ Py.concatAll (PdfProcessor.sectionsFrom cfg name 0 pages) ∧
    (∀ i : Nat,
      (PdfProcessor.sectionsFrom cfg name 0 pages)[i]?
        = pages[i]?.map (PdfProcessor.pageSection cfg name i)) ∧
    ∀ (i : Nat) (p : PdfProcessor.Page),
      PdfProcessor.pageSection cfg name i p
        = "## Page " ++ toString (i + 1) ++ "\n\n"
          ++ PdfProcessor.paragraphBlock (PdfProcessor.convertPageText cfg p)
          ++ (if cfg.extract_images = true then PdfProcessor.imagesBlock name i p else "") := by
  refine ⟨?_, fun i => by simpa using PdfProcessor.sectionsFrom_get cfg name pages 0 i,
    fun i p => rfl⟩
  unfold PdfProcessor.convertBody
  rw [PdfProcessor.writePages_eq, PdfProcessor.writeFrontmatter_eq]
  simp [String.append_assoc]

theorem py_startsWith_append (pre s t : String) (h : Py.startsWith s pre = true) :
    Py.startsWith (s ++ t) pre = true := by
  unfold Py.startsWith at *
  rw [List.isPrefixOf_iff_prefix] at *
  have : s.toList <+: (s ++ t).toList := by
    simp [String.toList, String.data_append]
  exact h.trans this

/-- Claim C8: for every environment, the dictionary
WordDocumentProcessor.extract_metadata returns has the single key
"error": the word-count line calls re.findall on the pair extract_text
returns, the call raises, and the handler discards the metadata
collected so far. -/
theorem word_extract_metadata_always_error (cfg : WordProcessor.Config)
    (env : WordProcessor.Env) :
    (WordProcessor.extract_metadata cfg env).map Prod.fst = ["error"] := by
  unfold WordProcessor.extract_metadata
  rcases env.openRes with e | doc <;>
    simp [WordProcessor.re_findall_words]

/-- Claim C6 (amended): provided every non-blank paragraph with a style
name starting with "Heading" has a heading level that parses (the style
name with the occurrences of "Heading" removed is an integer literal),
the paragraph loop of WordDocumentProcessor.convert_to_markdown writes
every paragraph with non-whitespace text exactly once, in document
order: a Heading-styled paragraph as hash marks of the parsed level,
a space and the text, and every other paragraph as its run-formatted
body text followed by a blank line. -/
theorem word_paragraphs_in_order (paras : List WordProcessor.Para)
    (h : ∀ p ∈ paras, Py.strip p.text ≠ "" →
      Py.startsWith p.styleName "Heading" = true →
      (Py.toInt? (Py.replace p.styleName "Heading" "")).isSome) :
    WordProcessor.writeParas paras ""
      = Except.ok (Py.concatAll (paras.map WordProcessor.renderedText)) := by
  simpa using WordProcessor.writeParas_ok paras h ""

/-- Witness for the amended claim C6 at a concrete document with one
heading and one body paragraph. -/
theorem word_paragraphs_in_order_witness :
    WordProcessor.writeParas
        [⟨"Title", "Heading 1", []⟩, ⟨"Hello", "Normal", []⟩] ""
      = Except.ok (Py.concatAll
          ([⟨"Title", "Heading 1", []⟩, ⟨"Hello", "Normal", []⟩].map
            WordProcessor.renderedText)) :=
  word_paragraphs_in_order
    [⟨"Title", "Heading 1", []⟩, ⟨"Hello", "Normal", []⟩] (by decide)

/-- Counterexample to claim C6 as stated: a document with the single
non-blank paragraph styled exactly "Heading" makes the int constructor
raise, so the conversion returns an error string and the paragraph is
not written. -/
theorem word_heading_parse_counterexample :
    WordProcessor.writeParas [⟨"Intro", "Heading", []⟩] ""
        = Except.error "invalid literal for int with base 10" ∧
      (WordProcessor.convert_to_markdown ⟨false⟩
          ⟨"doc", "out",
           Except.ok ⟨[⟨"Intro", "Heading", []⟩], [], ⟨"", "", "", "", "", ""⟩⟩,
           [], Except.ok 10, none⟩).1
        = "Error: Could not convert document to Markdown (invalid literal for int with base 10)" := by
  exact ⟨by decide, by decide⟩

/-- Claim C1: PDF and Word convert_to_markdown never propagate an
exception: for every environment the returned string is either the path
of the written markdown file (output directory joined with the stem and
the .md extension, the written content present) or a string starting
with "Error". -/
theorem convert_to_markdown_error_containment (pcfg : PdfProcessor.Config)
    (penv : PdfProcessor.Env) (wcfg : WordProcessor.Config) (wenv : WordProcessor.Env) :
    (((PdfProcessor.convert_to_markdown pcfg penv).1
          = Py.pathJoin penv.output_dir (penv.name ++ ".md") ∧
        (PdfProcessor.convert_to_markdown pcfg penv).2.isSome = true) ∨
      Py.startsWith (PdfProcessor.convert_to_markdown pcfg penv).1 "Error" = true) ∧
    (((WordProcessor.convert_to_markdown wcfg wenv).1
          = Py.pathJoin wenv.output_dir (wenv.name ++ ".md") ∧
        (WordProcessor.convert_to_markdown wcfg wenv).2.isSome = true) ∨
      Py.startsWith (WordProcessor.convert_to_markdown wcfg wenv).1 "Error" = true) := by
  have errPre : ∀ e : String,
      Py.startsWith ("Error: Could not convert document to Markdown (" ++ e ++ ")") "Error" = true :=
    fun e => py_startsWith_append _ _ _ (py_startsWith_append _ _ _ (by decide))
  constructor
  · unfold PdfProcessor.convert_to_markdown
    split
    · exact Or.inr (errPre _)
    · split
      · exact Or.inr (errPre _)
      · exact Or.inl ⟨rfl, rfl⟩
  · unfold WordProcessor.convert_to_markdown
    split
    · exact Or.inr (errPre _)
    · split
      · exact Or.inr (errPre _)
      · split
        · exact Or.inr (errPre _)
        · exact Or.inl ⟨rfl, rfl⟩

theorem collect_foldl (c : α → Bool) (g : α → String) (l : List α) :
    ∀ acc : List String,
      l.foldl
        (fun a x => if c x then (if !(Py.startsWith (g x) "Error") then a ++ [g x] else a) else a)
        acc
      = acc ++ (l.filterMap (fun x => if c x then some (g x) else none)).filter
          (fun r => !(Py.startsWith r "Error")) := by
  induction l with
  | nil => intro acc; simp
  | cons x xs ih =>
    intro acc
    rw [List.foldl_cons]
    by_cases hc : c x
    · by_cases hd : Py.startsWith (g x) "Error"
      · rw [if_pos hc, if_neg (by simp [hd]), ih]
        simp [List.filterMap_cons, hc, hd]
      · rw [if_pos hc, if_pos (by simp [hd]), ih]
        simp [List.filterMap_cons, hc, hd]
    · rw [if_neg hc, ih]
      simp [List.filterMap_cons, hc]

theorem walk_foldl (c : String → Bool) (conv : String → String → String) (out : String)
    (walk : List (String × List String)) :
    ∀ acc : List String,
      walk.foldl
        (fun a rf => rf.2.foldl
          (fun a f => if c f then
              (if !(Py.startsWith (conv (Py.pathJoin rf.1 f) out) "Error")
               then a ++ [conv (Py.pathJoin rf.1 f) out] else a)
            else a) a)
        acc
      = acc ++ ((walk.map (fun rf => rf.2.filterMap
          (fun f => if c f then some (conv (Py.pathJoin rf.1 f) out) else none))).flatten).filter
            (fun r => !(Py.startsWith r "Error")) := by
  induction walk with
  | nil => intro acc; simp
  | cons rf ws ih =>
    intro acc
    rw [List.foldl_cons, collect_foldl (c := c) (g := fun f => conv (Py.pathJoin rf.1 f) out), ih]
    simp [List.filter_append, List.append_assoc]

/-- Claim C7: each process_directory attempts conversion exactly for the
files whose lower-cased name ends in the accepted extension, in walk
order, and returns exactly the conversion results that do not start with
"Error". -/
theorem process_directory_successes (conv : String → String → String)
    (walk : List (String × List String)) (out : String) :
    PdfProcessor.process_directory conv walk out
      = ((walk.map (fun rf => rf.2.filterMap
          (fun f => if Py.endsWith (Py.lower f) ".pdf"
                    then some (conv (Py.pathJoin rf.1 f) out) else none))).flatten).filter
            (fun r => !(Py.startsWith r "Error")) ∧
    WordProcessor.process_directory conv walk out
      = ((walk.map (fun rf => rf.2.filterMap
          (fun f => if Py.endsWith (Py.lower f) ".docx" || Py.endsWith (Py.lower f) ".doc"
                    then some (conv (Py.pathJoin rf.1 f) out) else none))).flatten).filter
            (fun r => !(Py.startsWith r "Error")) := by
  constructor
  · simp only [PdfProcessor.process_directory]
    rw [walk_foldl (c := fun f => Py.endsWith (Py.lower f) ".pdf")]
    simp
  · simp only [WordProcessor.process_directory]
    rw [walk_foldl
      (c := fun f => Py.endsWith (Py.lower f) ".docx" || Py.endsWith (Py.lower f) ".doc")]
    simp

/-- Claim C9: process_file returns success exactly when an output path
is present, and when no suitable processor exists the call fails with a
non-empty error. -/
theorem universal_process_file_invariant (env : UniversalProcessor.Env)
    (file_path : String) :
    ((UniversalProcessor.process_file env file_path).success = true ↔
      (UniversalProcessor.process_file env file_path).output_path ≠ none) ∧
    (env.makedirsErr = none → env.lookup = none →
      (UniversalProcessor.process_file env file_path).success = false ∧
      (UniversalProcessor.process_file env file_path).error
        = some ("No suitable processor found for " ++ file_path)) := by
  unfold UniversalProcessor.process_file
  rcases env with ⟨mkErr, lookup, outdir, backup, backupErr⟩
  rcases mkErr with _ | e
  · rcases lookup with _ | ⟨ptype, processor⟩
    · exact ⟨by simp, fun _ _ => ⟨rfl, rfl⟩⟩
    · refine ⟨?_, fun _ h => by simp at h⟩
      by_cases hconv : Py.startsWith (processor file_path outdir) "Error"
      · simp [hconv]
      · rcases backup with _ | b
        · simp [hconv]
        · rcases backupErr with _ | be <;> simp [hconv]
  · exact ⟨by simp, fun h _ => by simp at h⟩

/-- Witness for claim C9 at a concrete environment with no processor
for the extension. -/
theorem universal_process_file_invariant_witness :
    ((UniversalProcessor.process_file ⟨none, none, "out", none, none⟩ "a.xyz").success = true ↔
      (UniversalProcessor.process_file ⟨none, none, "out", none, none⟩ "a.xyz").output_path ≠ none) ∧
    ((UniversalProcessor.process_file ⟨none, none, "out", none, none⟩ "a.xyz").success = false ∧
      (UniversalProcessor.process_file ⟨none, none, "out", none, none⟩ "a.xyz").error
        = some ("No suitable processor found for " ++ "a.xyz")) :=
  ⟨(universal_process_file_invariant ⟨none, none, "out", none, none⟩ "a.xyz").1,
   (universal_process_file_invariant ⟨none, none, "out", none, none⟩ "a.xyz").2 rfl rfl⟩

theorem py_keyMem_eq_isSome (l : List (String × β)) (k : String) :
    Py.keyMem l k = (Py.keyGet? l k).isSome := by
  induction l with
  | nil => rfl
  | cons kv rest ih =>
    by_cases h : kv.1 == k
    · simp [Py.keyMem, Py.keyGet?, List.any_cons, List.find?_cons, h]
    · simp only [Py.keyMem, Py.keyGet?, List.any_cons, List.find?_cons, h] at *
      simpa using ih

theorem py_keyMem_of_mem (l : List (String × β)) (kv : String × β) (h : kv ∈ l) :
    Py.keyMem l kv.1 = true := by
  unfold Py.keyMem
  rw [List.any_eq_true]
  exact ⟨kv, h, by simp⟩

theorem py_keyGet_keySet_self (l : List (String × β)) (k : String) (v : β) :
    Py.keyGet? (Py.keySet l k v) k = some v := by
  induction l with
  | nil => simp [Py.keySet, Py.keyGet?, List.find?_cons]
  | cons kv rest ih =>
    by_cases h : kv.1 == k
    · simp [Py.keySet, h, Py.keyGet?, List.find?_cons]
    · simpa [Py.keySet, h, Py.keyGet?, List.find?_cons] using ih

theorem py_find_keySet_ne (l : List (String × β)) (k k2 : String) (v : β)
    (h : k2 ≠ k) :
    List.find? (fun kv => kv.1 == k2) (Py.keySet l k v)
      = List.find? (fun kv => kv.1 == k2) l := by
  have hne : (k == k2) = false := by
    simp only [beq_eq_false_iff_ne, ne_eq]
    exact fun hh => h hh.symm
  induction l with
  | nil => simp [Py.keySet, List.find?_cons, hne]
  | cons kv rest ih =>
    by_cases hk : kv.1 == k
    · have hkv : kv.1 = k := by simpa using hk
      have hne2 : (kv.1 == k2) = false := by rw [hkv]; exact hne
      simp [Py.keySet, hk, List.find?_cons, hne, hne2]
    · by_cases h2 : kv.1 == k2 <;>
        simp [Py.keySet, hk, List.find?_cons, h2, ih]

theorem py_keyGet_keySet_ne (l : List (String × β)) (k k2 : String) (v : β)
    (h : k2 ≠ k) :
    Py.keyGet? (Py.keySet l k v) k2 = Py.keyGet? l k2 := by
  unfold Py.keyGet?
  rw [py_find_keySet_ne l k k2 v h]

theorem py_keyMem_keySet (l : List (String × β)) (k k2 : String) (v : β) :
    Py.keyMem (Py.keySet l k v) k2 = (k2 == k || Py.keyMem l k2) := by
  by_cases h : k2 = k
  · subst h
    simp [py_keyMem_eq_isSome, py_keyGet_keySet_self]
  · simp [py_keyMem_eq_isSome, py_keyGet_keySet_ne l k k2 v h, h]

namespace UniversalProcessor

theorem mergeStep_keyGet_self (cfg : List (String × Yaml)) (kv : String × Yaml) :
    Py.keyGet? (mergeStep cfg kv) kv.1 = some (mergeVal (Py.keyGet? cfg kv.1) kv.2) := by
  rcases kv with ⟨k, v⟩
  by_cases hm : Py.keyMem cfg k
  · obtain ⟨w, hw⟩ := Option.isSome_iff_exists.mp
      (show (Py.keyGet? cfg k).isSome by rw [← py_keyMem_eq_isSome]; exact hm)
    have hstep : mergeStep cfg (k, v)
        = match v, Py.keyGet? cfg k with
          | .dict dsub, some (.dict csub) => Py.keySet cfg k (.dict (fillMissing csub dsub))
          | _, _ => cfg := by
      simp [mergeStep, hm]
    rw [hstep, hw]
    cases v <;> cases w <;>
      simp [mergeVal, py_keyGet_keySet_self, hw]
  · have hfalse : Py.keyMem cfg k = false := by simpa using hm
    have hnone : Py.keyGet? cfg k = none :=
      Option.not_isSome_iff_eq_none.mp
        (by simp [← py_keyMem_eq_isSome, hfalse])
    simp [mergeStep, hfalse, py_keyGet_keySet_self, hnone, mergeVal]

theorem mergeStep_keyGet_ne (cfg : List (String × Yaml)) (kv : String × Yaml)
    (k2 : String) (h : k2 ≠ kv.1) :
    Py.keyGet? (mergeStep cfg kv) k2 = Py.keyGet? cfg k2 := by
  unfold mergeStep
  split
  · split
    · exact py_keyGet_keySet_ne _ _ _ _ h
    · rfl
  · exact py_keyGet_keySet_ne _ _ _ _ h

theorem mergeStep_keyMem_mono (cfg : List (String × Yaml)) (kv : String × Yaml)
    (k2 : String) (h : Py.keyMem cfg k2 = true) :
    Py.keyMem (mergeStep cfg kv) k2 = true := by
  unfold mergeStep
  split
  · split
    · simp [py_keyMem_keySet, h]
    · exact h
  · simp [py_keyMem_keySet, h]

theorem mergeStep_keyMem_self (cfg : List (String × Yaml)) (kv : String × Yaml) :
    Py.keyMem (mergeStep cfg kv) kv.1 = true := by
  by_cases hm : Py.keyMem cfg kv.1
  · exact mergeStep_keyMem_mono cfg kv kv.1 hm
  · simp [mergeStep, hm, py_keyMem_keySet]

theorem foldl_mergeStep_keyMem_mono (ds : List (String × Yaml)) :
    ∀ (m : List (String × Yaml)) (k : String), Py.keyMem m k = true →
      Py.keyMem (ds.foldl mergeStep m) k = true := by
  induction ds with
  | nil => intro m k h; exact h
  | cons e ds ih =>
    intro m k h
    rw [List.foldl_cons]
    exact ih _ _ (mergeStep_keyMem_mono m e k h)

theorem foldl_mergeStep_keyMem (ds : List (String × Yaml)) :
    ∀ (m : List (String × Yaml)) (kv : String × Yaml), kv ∈ ds →
      Py.keyMem (ds.foldl mergeStep m) kv.1 = true := by
  induction ds with
  | nil => intro m kv h; cases h
  | cons e ds ih =>
    intro m kv h
    rw [List.foldl_cons]
    rcases List.mem_cons.mp h with rfl | hmem
    · exact foldl_mergeStep_keyMem_mono ds _ _ (mergeStep_keyMem_self m kv)
    · exact ih _ _ hmem

theorem foldl_mergeStep_keyGet_absent (ds : List (String × Yaml)) :
    ∀ (m : List (String × Yaml)) (k : String), (∀ e ∈ ds, e.1 ≠ k) →
      Py.keyGet? (ds.foldl mergeStep m) k = Py.keyGet? m k := by
  induction ds with
  | nil => intro m k _; rfl
  | cons e ds ih =>
    intro m k h
    rw [List.foldl_cons, ih _ _ (fun q hq => h q (List.mem_cons_of_mem e hq))]
    exact mergeStep_keyGet_ne m e k (fun hh => h e (List.mem_cons_self e ds) hh.symm)

theorem foldl_mergeStep_keyGet (ds : List (String × Yaml)) :
    ∀ (m : List (String × Yaml)) (k : String) (v : Yaml), (k, v) ∈ ds →
      List.Pairwise (fun a b : String × Yaml => a.1 ≠ b.1) ds →
      Py.keyGet? (ds.foldl mergeStep m) k = some (mergeVal (Py.keyGet? m k) v) := by
  induction ds with
  | nil => intro m k v h; cases h
  | cons e ds ih =>
    intro m k v h hpw
    rw [List.foldl_cons]
    have hpw1 : ∀ b ∈ ds, e.1 ≠ b.1 := (List.pairwise_cons.mp hpw).1
    have hpw2 : List.Pairwise (fun a b : String × Yaml => a.1 ≠ b.1) ds :=
      (List.pairwise_cons.mp hpw).2
    rcases List.mem_cons.mp h with heq | hmem
    · have hk : e.1 = k := by rw [← heq]
      have habs : ∀ q ∈ ds, q.1 ≠ k := fun q hq => fun hh => hpw1 q hq (hk ▸ hh).symm
      rw [foldl_mergeStep_keyGet_absent ds _ _ habs, ← hk]
      have := mergeStep_keyGet_self m e
      rw [this]
      have hv : e.2 = v := by rw [← heq]
      rw [hv]
    · have hne : k ≠ e.1 := Ne.symm (hpw1 (k, v) hmem)
      rw [ih _ _ _ hmem hpw2, mergeStep_keyGet_ne m e k hne]

theorem fillMissing_keyMem_mono (d : List (String × Yaml)) :
    ∀ (e : List (String × Yaml)) (k : String), Py.keyMem e k = true →
      Py.keyMem (fillMissing e d) k = true := by
  induction d with
  | nil => intro e k h; exact h
  | cons s d ih =>
    intro e k h
    unfold fillMissing at *
    rw [List.foldl_cons]
    apply ih
    by_cases hs : Py.keyMem e s.1 <;>
      simp [hs, py_keyMem_keySet, h]

theorem fillMissing_keyMem (d : List (String × Yaml)) :
    ∀ (e : List (String × Yaml)) (sv : String × Yaml), sv ∈ d →
      Py.keyMem (fillMissing e d) sv.1 = true := by
  induction d with
  | nil => intro e sv h; cases h
  | cons s d ih =>
    intro e sv h
    unfold fillMissing at *
    rw [List.foldl_cons]
    rcases List.mem_cons.mp h with rfl | hmem
    · apply fillMissing_keyMem_mono d
      by_cases hs : Py.keyMem e sv.1 <;>
        simp [hs, py_keyMem_keySet]
    · exact ih _ _ hmem

theorem default_config_keys_distinct :
    List.Pairwise (fun a b : String × Yaml => a.1 ≠ b.1) default_config := by
  unfold default_config
  decide

end UniversalProcessor

theorem default_config_top_complete :
    UniversalProcessor.containsAllTop UniversalProcessor.default_config = true := by
  decide

theorem default_config_sub_complete :
    UniversalProcessor.subkeysFilled UniversalProcessor.default_config = true := by
  decide

/-- Claim C10 (amended): _load_config always returns a configuration
containing every top-level default key; and provided the loaded file
does not replace a dictionary-valued top-level key by a non-dictionary
value, every nested default dictionary has all its sub-keys present in
the result (a non-dictionary override is kept wholesale). -/
theorem universal_load_config_defaults (src : UniversalProcessor.ConfigSource) :
    UniversalProcessor.containsAllTop (UniversalProcessor.load_config src) = true ∧
    (UniversalProcessor.preservesDictShape src = true →
      UniversalProcessor.subkeysFilled (UniversalProcessor.load_config src) = true) := by
  rcases src with _ | e | v
  · exact ⟨default_config_top_complete, fun _ => default_config_sub_complete⟩
  · exact ⟨default_config_top_complete, fun _ => default_config_sub_complete⟩
  rcases v with s | i | b | _ | l | m
  · exact ⟨default_config_top_complete, fun _ => default_config_sub_complete⟩
  · exact ⟨default_config_top_complete, fun _ => default_config_sub_complete⟩
  · exact ⟨default_config_top_complete, fun _ => default_config_sub_complete⟩
  · exact ⟨default_config_top_complete, fun _ => default_config_sub_complete⟩
  · exact ⟨default_config_top_complete, fun _ => default_config_sub_complete⟩
  constructor
  · unfold UniversalProcessor.containsAllTop
    rw [List.all_eq_true]
    intro kv hkv
    exact UniversalProcessor.foldl_mergeStep_keyMem _ _ _ hkv
  · intro hshape
    unfold UniversalProcessor.subkeysFilled
    rw [List.all_eq_true]
    rintro ⟨k, v⟩ hkv
    cases v with
    | str s => rfl
    | int i => rfl
    | bool b => rfl
    | null => rfl
    | list l => rfl
    | dict dsub =>
      have hget := UniversalProcessor.foldl_mergeStep_keyGet
        UniversalProcessor.default_config m k (.dict dsub) hkv
        UniversalProcessor.default_config_keys_distinct
      have hshape2 := (List.all_eq_true.mp hshape) ⟨k, .dict dsub⟩ hkv
      simp only at hshape2
      cases hm : Py.keyGet? m k with
      | none =>
        rw [hm] at hget
        simp only [UniversalProcessor.load_config, hget, UniversalProcessor.mergeVal]
        rw [List.all_eq_true]
        intro sv hsv
        exact py_keyMem_of_mem dsub sv hsv
      | some w =>
        rw [hm] at hshape2
        cases w with
        | dict csub =>
          rw [hm] at hget
          simp only [UniversalProcessor.load_config, hget, UniversalProcessor.mergeVal]
          rw [List.all_eq_true]
          intro sv hsv
          exact UniversalProcessor.fillMissing_keyMem dsub csub sv hsv
        | str s => simp at hshape2
        | int i => simp at hshape2
        | bool b => simp at hshape2
        | null => simp at hshape2
        | list l => simp at hshape2

/-- Witness for the amended claim C10 at a concrete partial YAML file
overriding one scalar and part of one processor section. -/
theorem universal_load_config_defaults_witness :
    UniversalProcessor.containsAllTop
        (UniversalProcessor.load_config
          (.loaded (.dict
            [("log_level", .str "DEBUG"),
             ("processors", .dict [("word", .dict [("enabled", .bool false)])])]))) = true ∧
    UniversalProcessor.subkeysFilled
        (UniversalProcessor.load_config
          (.loaded (.dict
            [("log_level", .str "DEBUG"),
             ("processors", .dict [("word", .dict [("enabled", .bool false)])])]))) = true :=
  ⟨(universal_load_config_defaults
      (.loaded (.dict
        [("log_level", .str "DEBUG"),
         ("processors", .dict [("word", .dict [("enabled", .bool false)])])]))).1,
   (universal_load_config_defaults
      (.loaded (.dict
        [("log_level", .str "DEBUG"),
         ("processors", .dict [("word", .dict [("enabled", .bool false)])])]))).2 (by decide)⟩

/-- Counterexample to claim C10 as stated: a YAML file assigning the
integer 5 to the processors key loads, the merge keeps that value
unchanged, and no processor sub-key is filled in. -/
theorem universal_load_config_counterexample :
    UniversalProcessor.subkeysFilled
        (UniversalProcessor.load_config (.loaded (.dict [("processors", .int 5)]))) = false ∧
    Py.keyGet?
        (UniversalProcessor.load_config (.loaded (.dict [("processors", .int 5)])))
        "processors"
      = some (.int 5) :=
  ⟨by decide, rfl⟩

/-- Claim C5 (amended): search_docs formats the library result for
display: a successful search yields the local results rendered as
Document and Content lines joined by blank lines, or the no-documents
message when they are empty; a failing call yields the error string only
when the exception is a requests.RequestException, and any other
exception propagates. -/
theorem search_docs_formats (r : AppUI.SearchResults) (e : AppUI.PyExc) :
    AppUI.search_docs (.ok r)
      = .ok (if r.local_results.isEmpty then "No relevant documents found."
             else Py.joinSep "\n\n" (r.local_results.map
               (fun d => "Document: " ++ d.doc_id ++ "\nContent: " ++ d.content))) ∧
    AppUI.search_docs (.error e)
      = (if e.isRequestException then .ok ("Error searching documents: " ++ e.msg)
         else .error e) := by
  constructor
  · by_cases h : r.local_results.isEmpty <;> simp [AppUI.search_docs, h]
  · by_cases h : e.isRequestException <;> simp [AppUI.search_docs, h]

/-- Counterexample to claim C5 as stated: when the underlying call fails
with an exception that is not a RequestException, search_docs propagates
it instead of returning an error string. -/
theorem search_docs_counterexample :
    AppUI.search_docs (.error ⟨false, "connection reset"⟩)
        = .error ⟨false, "connection reset"⟩ ∧
      (AppUI.search_docs (.error ⟨false, "connection reset"⟩)).isOk = false :=
  ⟨rfl, rfl⟩
